import Mathlib

/-!
Shallow embedding of the bet-settlement engine of the Football-Manager betting
application.  The in-memory storage (`MemStorage`) keeps lists of users,
matches, markets, bets and bet selections (JavaScript `Map`s in insertion
order); the settlement operations (`resolveBet`, `resolveBetsForMatch`,
`updateMatchStatus`) and the market-outcome evaluators (`isBetWinner`,
`isBetPush`, implemented once in the server storage module and once in the
client utils module) are translated directly from the source.  Numeric values
(scores, odds, stakes, balances) are JavaScript numbers holding small exact
values in the source and are embedded as rationals.
-/

/-- A user record: id, username, balance. -/
structure User where
  id : ℕ
  username : String
  balance : ℚ
deriving DecidableEq

/-- A match record with its status string and nullable full-time and
half-time scores. -/
structure Match where
  id : ℕ
  status : String
  homeScore : Option ℚ
  awayScore : Option ℚ
  htHomeScore : Option ℚ
  htAwayScore : Option ℚ
deriving DecidableEq

/-- A market: a bet offer of a given type on one match, with fixed odds. -/
structure Market where
  id : ℕ
  matchId : ℕ
  type : String
  odds : ℚ
deriving DecidableEq

/-- A bet: a wager owned by a user, with stored stake, total odds,
potential win and status string. -/
structure Bet where
  id : ℕ
  userId : ℕ
  stake : ℚ
  totalOdds : ℚ
  potentialWin : ℚ
  status : String
deriving DecidableEq

/-- One leg of a bet, referencing a market by id. -/
structure BetSelection where
  id : ℕ
  betId : ℕ
  marketId : ℕ
  odds : ℚ
deriving DecidableEq

/-- The in-memory storage: JavaScript `Map`s embedded as lists in insertion
order. -/
structure MemStorage where
  users : List User
  «matches» : List Match
  markets : List Market
  bets : List Bet
  betSelections : List BetSelection
deriving DecidableEq

namespace MemStorage

/-- The win evaluator duplicated inside `resolveBetsForMatch` in the server
storage module: a `switch` on the market type, translated as the sequential
equality tests JavaScript `switch` performs; unknown types fall through to
`false`. -/
def isBetWinner (marketType : String) (homeScore awayScore htHomeScore htAwayScore : ℚ) :
    Bool :=
  let totalGoals := homeScore + awayScore
  let htTotalGoals := htHomeScore + htAwayScore
  if marketType = "1" then decide (homeScore > awayScore)
  else if marketType = "X" then decide (homeScore = awayScore)
  else if marketType = "2" then decide (awayScore > homeScore)
  else if marketType = "OVER_1_5" then decide (totalGoals > 1.5)
  else if marketType = "UNDER_1_5" then decide (totalGoals < 1.5)
  else if marketType = "OVER_2_5" then decide (totalGoals > 2.5)
  else if marketType = "UNDER_2_5" then decide (totalGoals < 2.5)
  else if marketType = "OVER_3_5" then decide (totalGoals > 3.5)
  else if marketType = "UNDER_3_5" then decide (totalGoals < 3.5)
  else if marketType = "BTTS_YES" then decide (homeScore > 0) && decide (awayScore > 0)
  else if marketType = "BTTS_NO" then decide (homeScore = 0) || decide (awayScore = 0)
  else if marketType = "DNB_1" then decide (homeScore > awayScore)
  else if marketType = "DNB_2" then decide (awayScore > homeScore)
  else if marketType = "DC_1X" then decide (homeScore ≥ awayScore)
  else if marketType = "DC_12" then decide (homeScore ≠ awayScore)
  else if marketType = "DC_X2" then decide (awayScore ≥ homeScore)
  else if marketType = "HT_1" then decide (htHomeScore > htAwayScore)
  else if marketType = "HT_X" then decide (htHomeScore = htAwayScore)
  else if marketType = "HT_2" then decide (htAwayScore > htHomeScore)
  else if marketType = "HT_OVER_0_5" then decide (htTotalGoals > 0.5)
  else if marketType = "HT_UNDER_0_5" then decide (htTotalGoals < 0.5)
  else if marketType = "HT_OVER_1_5" then decide (htTotalGoals > 1.5)
  else if marketType = "HT_UNDER_1_5" then decide (htTotalGoals < 1.5)
  else if marketType = "HT_BTTS_YES" then decide (htHomeScore > 0) && decide (htAwayScore > 0)
  else if marketType = "HT_BTTS_NO" then decide (htHomeScore = 0) || decide (htAwayScore = 0)
  else if marketType = "HANDICAP_1_MINUS_1" then decide (homeScore - 1 > awayScore)
  else if marketType = "HANDICAP_1_MINUS_2" then decide (homeScore - 2 > awayScore)
  else if marketType = "HANDICAP_2_MINUS_1" then decide (homeScore < awayScore - 1)
  else if marketType = "HANDICAP_2_MINUS_2" then decide (homeScore < awayScore - 2)
  else if marketType = "WIN_BOTH_HALVES_1" then
    let secondHalfHome := homeScore - htHomeScore
    let secondHalfAway := awayScore - htAwayScore
    decide (htHomeScore > htAwayScore) && decide (secondHalfHome > secondHalfAway)
  else if marketType = "WIN_BOTH_HALVES_2" then
    let secondHalfHome := homeScore - htHomeScore
    let secondHalfAway := awayScore - htAwayScore
    decide (htAwayScore > htHomeScore) && decide (secondHalfAway > secondHalfHome)
  else if marketType = "WIN_EITHER_HALF_1" then
    let secondHalfHome := homeScore - htHomeScore
    let secondHalfAway := awayScore - htAwayScore
    decide (htHomeScore > htAwayScore) || decide (secondHalfHome > secondHalfAway)
  else if marketType = "WIN_EITHER_HALF_2" then
    let secondHalfHome := homeScore - htHomeScore
    let secondHalfAway := awayScore - htAwayScore
    decide (htAwayScore > htHomeScore) || decide (secondHalfAway > secondHalfHome)
  else false

/-- The push evaluator duplicated inside `resolveBetsForMatch` in the server
storage module. -/
def isBetPush (marketType : String) (homeScore awayScore : ℚ) : Bool :=
  if marketType = "DNB_1" then decide (homeScore = awayScore)
  else if marketType = "DNB_2" then decide (homeScore = awayScore)
  else false

/-- `getUser`: `this.users.get(id)` on the users map. -/
def getUser (s : MemStorage) (id : ℕ) : Option User :=
  s.users.find? (fun u => u.id == id)

/-- `updateUserBalance`: look the user up; if absent do nothing, otherwise
store the record with the new balance under the same key. -/
def updateUserBalance (s : MemStorage) (id : ℕ) (balance : ℚ) : MemStorage :=
  match s.getUser id with
  | none => s
  | some _ =>
    { s with users := s.users.map (fun u => if u.id == id then { u with balance := balance } else u) }

/-- `resolveBet(betId, status)`: if the new status is WON, credit the owning
user's balance with the bet's potential win; then (in every case) store the
bet with the new status if it exists. -/
def resolveBet (s : MemStorage) (betId : ℕ) (status : String) : MemStorage :=
  let s1 :=
    if status == "WON" then
      match s.bets.find? (fun b => b.id == betId) with
      | none => s
      | some bet =>
        match s.getUser bet.userId with
        | none => s
        | some user => s.updateUserBalance user.id (user.balance + bet.potentialWin)
    else s
  match s1.bets.find? (fun b => b.id == betId) with
  | none => s1
  | some _ =>
    { s1 with bets := s1.bets.map (fun b => if b.id == betId then { b with status := status } else b) }

/-- The balance-credit block of `resolveBet` (the `if (status === "WON")`
part), named for the proofs. -/
def creditStep (s : MemStorage) (betId : ℕ) (st : String) : MemStorage :=
  if st == "WON" then
    match s.bets.find? (fun b => b.id == betId) with
    | none => s
    | some bet =>
      match s.getUser bet.userId with
      | none => s
      | some user => s.updateUserBalance user.id (user.balance + bet.potentialWin)
  else s

/-- The status-write block of `resolveBet`, named for the proofs. -/
def setStatusStep (s : MemStorage) (betId : ℕ) (st : String) : MemStorage :=
  match s.bets.find? (fun b => b.id == betId) with
  | none => s
  | some _ =>
    { s with bets := s.bets.map (fun b => if b.id == betId then { b with status := st } else b) }

/-- The inner `for (const selection of ...filter(...))` loop of
`resolveBetsForMatch`, carrying the `hasAnyPush` flag; it returns the pair
`(allSelectionsWon, hasAnyPush)` and exits early (the `break`) on the first
selection of the given match that is neither a push nor a winner. -/
def evalSelections (markets : List Market) (matchId : ℕ)
    (homeScore awayScore htHomeScore htAwayScore : ℚ) :
    List BetSelection → Bool → Bool × Bool
  | [], hasAnyPush => (true, hasAnyPush)
  | sel :: rest, hasAnyPush =>
    match markets.find? (fun mk => mk.id == sel.marketId) with
    | none => evalSelections markets matchId homeScore awayScore htHomeScore htAwayScore rest hasAnyPush
    | some market =>
      if market.matchId == matchId then
        if isBetPush market.type homeScore awayScore then
          evalSelections markets matchId homeScore awayScore htHomeScore htAwayScore rest true
        else if !isBetWinner market.type homeScore awayScore htHomeScore htAwayScore then
          (false, hasAnyPush)
        else
          evalSelections markets matchId homeScore awayScore htHomeScore htAwayScore rest hasAnyPush
      else
        evalSelections markets matchId homeScore awayScore htHomeScore htAwayScore rest hasAnyPush

/-- The body of the `for (const bet of ...)` loop of `resolveBetsForMatch`:
skip non-PENDING bets; otherwise evaluate the bet's selections and resolve
the bet to PUSH, WON or LOST. -/
def settleStep (matchId : ℕ) (homeScore awayScore htHomeScore htAwayScore : ℚ)
    (acc : MemStorage) (bet : Bet) : MemStorage :=
  if bet.status == "PENDING" then
    let r := evalSelections acc.markets matchId homeScore awayScore htHomeScore htAwayScore
      (acc.betSelections.filter (fun sel => sel.betId == bet.id)) false
    if r.1 then
      if r.2 then acc.resolveBet bet.id "PUSH" else acc.resolveBet bet.id "WON"
    else acc.resolveBet bet.id "LOST"
  else acc

/-- `resolveBetsForMatch(matchId)`: find the match; return early unless it is
FINISHED with non-null full-time scores; otherwise run the settlement loop
over the snapshot of all bets, with half-time scores defaulted to 0 when
null (`match.htHomeScore || 0`). -/
def resolveBetsForMatch (s : MemStorage) (matchId : ℕ) : MemStorage :=
  match s.«matches».find? (fun m => m.id == matchId) with
  | none => s
  | some m =>
    if m.status == "FINISHED" then
      match m.homeScore, m.awayScore with
      | some homeScore, some awayScore =>
        s.bets.foldl
          (settleStep matchId homeScore awayScore (m.htHomeScore.getD 0) (m.htAwayScore.getD 0)) s
      | _, _ => s
    else s

/-- `updateMatchStatus`: update the stored match (an absent score argument
keeps the old value; for the half-time arguments `none`/`some v` model the
JavaScript `undefined`/given distinction of the optional `number | null`
parameters); if the new status is FINISHED, run `resolveBetsForMatch`. -/
def updateMatchStatus (s : MemStorage) (id : ℕ) (status : String)
    (homeScore awayScore : Option ℚ) (htHomeScore htAwayScore : Option (Option ℚ)) : MemStorage :=
  match s.«matches».find? (fun m => m.id == id) with
  | none => s
  | some m =>
    let updatedMatch : Match :=
      { m with
        status := status
        homeScore := match homeScore with | some v => some v | none => m.homeScore
        awayScore := match awayScore with | some v => some v | none => m.awayScore
        htHomeScore := match htHomeScore with | some v => v | none => m.htHomeScore
        htAwayScore := match htAwayScore with | some v => v | none => m.htAwayScore }
    let s1 := { s with «matches» := s.«matches».map (fun mm => if mm.id == id then updatedMatch else mm) }
    if status == "FINISHED" then s1.resolveBetsForMatch id else s1

/-- Observer: the stored status of the bet with the given id. -/
def betStatus (s : MemStorage) (betId : ℕ) : Option String :=
  (s.bets.find? (fun b => b.id == betId)).map (fun b => b.status)

/-- Observer: the stored balance of the user with the given id. -/
def userBalance (s : MemStorage) (id : ℕ) : Option ℚ :=
  (s.getUser id).map (fun u => u.balance)

end MemStorage

/-- Specification-side observer: the outcome of one selection with respect to
one match — `none` when the selection's market is missing or belongs to a
different match, otherwise `some (isWinner, isPush)` of its market type. -/
def selectionOutcome (markets : List Market) (matchId : ℕ)
    (homeScore awayScore htHomeScore htAwayScore : ℚ) (sel : BetSelection) :
    Option (Bool × Bool) :=
  match markets.find? (fun mk => mk.id == sel.marketId) with
  | none => none
  | some mk =>
    if mk.matchId == matchId then
      some (MemStorage.isBetWinner mk.type homeScore awayScore htHomeScore htAwayScore,
            MemStorage.isBetPush mk.type homeScore awayScore)
    else none

/-- Specification-side observer: a selection of the given match that is
neither a winner nor a push. -/
def selectionLost (markets : List Market) (matchId : ℕ)
    (homeScore awayScore htHomeScore htAwayScore : ℚ) (sel : BetSelection) : Bool :=
  match selectionOutcome markets matchId homeScore awayScore htHomeScore htAwayScore sel with
  | some (w, p) => !p && !w
  | none => false

/-- Specification-side observer: a selection of the given match that pushes. -/
def selectionPush (markets : List Market) (matchId : ℕ)
    (homeScore awayScore htHomeScore htAwayScore : ℚ) (sel : BetSelection) : Bool :=
  match selectionOutcome markets matchId homeScore awayScore htHomeScore htAwayScore sel with
  | some (_, p) => p
  | none => false

/-- Specification-side aggregation rule over a bet's selections, as the spec
states it: LOST if some selection of the match is neither winner nor push,
else PUSH if some selection of the match pushes, else WON. -/
def aggregateStatus (markets : List Market) (matchId : ℕ)
    (homeScore awayScore htHomeScore htAwayScore : ℚ) (sels : List BetSelection) : String :=
  if sels.any (selectionLost markets matchId homeScore awayScore htHomeScore htAwayScore) then "LOST"
  else if sels.any (selectionPush markets matchId homeScore awayScore htHomeScore htAwayScore) then "PUSH"
  else "WON"

namespace utils

/-- The win evaluator exported from the client utils module
(`client/src/lib/utils.ts`), translated the same way as the server copy. -/
def isBetWinner (marketType : String) (homeScore awayScore htHomeScore htAwayScore : ℚ) :
    Bool :=
  let totalGoals := homeScore + awayScore
  let htTotalGoals := htHomeScore + htAwayScore
  if marketType = "1" then decide (homeScore > awayScore)
  else if marketType = "X" then decide (homeScore = awayScore)
  else if marketType = "2" then decide (awayScore > homeScore)
  else if marketType = "OVER_1_5" then decide (totalGoals > 1.5)
  else if marketType = "UNDER_1_5" then decide (totalGoals < 1.5)
  else if marketType = "OVER_2_5" then decide (totalGoals > 2.5)
  else if marketType = "UNDER_2_5" then decide (totalGoals < 2.5)
  else if marketType = "OVER_3_5" then decide (totalGoals > 3.5)
  else if marketType = "UNDER_3_5" then decide (totalGoals < 3.5)
  else if marketType = "BTTS_YES" then decide (homeScore > 0) && decide (awayScore > 0)
  else if marketType = "BTTS_NO" then decide (homeScore = 0) || decide (awayScore = 0)
  else if marketType = "DNB_1" then decide (homeScore > awayScore)
  else if marketType = "DNB_2" then decide (awayScore > homeScore)
  else if marketType = "DC_1X" then decide (homeScore ≥ awayScore)
  else if marketType = "DC_12" then decide (homeScore ≠ awayScore)
  else if marketType = "DC_X2" then decide (awayScore ≥ homeScore)
  else if marketType = "HT_1" then decide (htHomeScore > htAwayScore)
  else if marketType = "HT_X" then decide (htHomeScore = htAwayScore)
  else if marketType = "HT_2" then decide (htAwayScore > htHomeScore)
  else if marketType = "HT_OVER_0_5" then decide (htTotalGoals > 0.5)
  else if marketType = "HT_UNDER_0_5" then decide (htTotalGoals < 0.5)
  else if marketType = "HT_OVER_1_5" then decide (htTotalGoals > 1.5)
  else if marketType = "HT_UNDER_1_5" then decide (htTotalGoals < 1.5)
  else if marketType = "HT_BTTS_YES" then decide (htHomeScore > 0) && decide (htAwayScore > 0)
  else if marketType = "HT_BTTS_NO" then decide (htHomeScore = 0) || decide (htAwayScore = 0)
  else if marketType = "HANDICAP_1_MINUS_1" then decide (homeScore - 1 > awayScore)
  else if marketType = "HANDICAP_1_MINUS_2" then decide (homeScore - 2 > awayScore)
  else if marketType = "HANDICAP_2_MINUS_1" then decide (homeScore < awayScore - 1)
  else if marketType = "HANDICAP_2_MINUS_2" then decide (homeScore < awayScore - 2)
  else if marketType = "WIN_BOTH_HALVES_1" then
    decide (htHomeScore > htAwayScore) &&
      decide (homeScore - htHomeScore > awayScore - htAwayScore)
  else if marketType = "WIN_BOTH_HALVES_2" then
    decide (htAwayScore > htHomeScore) &&
      decide (awayScore - htAwayScore > homeScore - htHomeScore)
  else if marketType = "WIN_EITHER_HALF_1" then
    decide (htHomeScore > htAwayScore) ||
      decide (homeScore - htHomeScore > awayScore - htAwayScore)
  else if marketType = "WIN_EITHER_HALF_2" then
    decide (htAwayScore > htHomeScore) ||
      decide (awayScore - htAwayScore > homeScore - htHomeScore)
  else false

/-- The push evaluator exported from the client utils module. -/
def isBetPush (marketType : String) (homeScore awayScore : ℚ) : Bool :=
  if marketType = "DNB_1" then decide (homeScore = awayScore)
  else if marketType = "DNB_2" then decide (homeScore = awayScore)
  else false

end utils

/-- The closed enumeration of market types of the rule table of the spec. -/
def sectionFourOneMarketTypes : List String :=
  ["1", "X", "2", "OVER_1_5", "UNDER_1_5", "OVER_2_5", "UNDER_2_5", "OVER_3_5", "UNDER_3_5", "BTTS_YES", "BTTS_NO", "DNB_1", "DNB_2", "DC_1X", "DC_12", "DC_X2", "HT_1", "HT_X", "HT_2", "HT_OVER_0_5", "HT_UNDER_0_5", "HT_OVER_1_5", "HT_UNDER_1_5", "HT_BTTS_YES", "HT_BTTS_NO", "HANDICAP_1_MINUS_1", "HANDICAP_1_MINUS_2", "HANDICAP_2_MINUS_1", "HANDICAP_2_MINUS_2", "WIN_BOTH_HALVES_1", "WIN_BOTH_HALVES_2", "WIN_EITHER_HALF_1", "WIN_EITHER_HALF_2"]

/-- Concrete storage for the C3 witness: one user with balance 1000, one
PENDING bet with potential win 20. -/
def storageC3 : MemStorage :=
  ⟨[⟨1, "user", 1000⟩], [], [], [⟨1, 1, 10, 2, 20, "PENDING"⟩], []⟩

/-- Concrete storage refuting C4: bet 1 is already WON (not PENDING). -/
def storageC4 : MemStorage :=
  ⟨[⟨1, "user", 1000⟩], [], [], [⟨1, 1, 10, 2, 20, "WON"⟩], []⟩

/-- Concrete storage for the C9 witness: an UPCOMING match with a pending bet. -/
def storageC9 : MemStorage :=
  ⟨[⟨1, "user", 1000⟩], [⟨1, "UPCOMING", none, none, none, none⟩], [],
   [⟨1, 1, 10, 2, 20, "PENDING"⟩], []⟩

/-- Concrete storage for the C2 witness: match 1 FINISHED 1-1 with a DNB_1
market and one pending single-selection bet on it. -/
def storageC2 : MemStorage :=
  ⟨[⟨1, "user", 1000⟩],
   [⟨1, "FINISHED", some 1, some 1, none, none⟩],
   [⟨1, 1, "DNB_1", 2⟩],
   [⟨1, 1, 10, 2, 20, "PENDING"⟩],
   [⟨1, 1, 1, 2⟩]⟩

/-- Concrete storage for the C6 witness: a finished match and an already-WON
bet. -/
def storageC6 : MemStorage :=
  ⟨[⟨1, "user", 1000⟩], [⟨1, "FINISHED", some 2, some 1, none, none⟩], [],
   [⟨1, 1, 10, 2, 20, "WON"⟩], []⟩

/-- Concrete storage for the C10 witness: match 1 is FINISHED 3-0, but bet 1's
only selection is on a market of the still-UPCOMING match 2. -/
def storageC10 : MemStorage :=
  ⟨[⟨1, "user", 1000⟩],
   [⟨1, "FINISHED", some 3, some 0, none, none⟩, ⟨2, "UPCOMING", none, none, none, none⟩],
   [⟨1, 2, "1", 2⟩],
   [⟨1, 1, 10, 2, 20, "PENDING"⟩],
   [⟨1, 1, 1, 2⟩]⟩

/-- Concrete storage for the C7 end-to-end scenario: user balance 1000, match
1 UPCOMING, a `1` market at odds 1.85 on it, and a PENDING stake-10 bet with
stored potential win 18.5 whose single selection is that market. -/
def storageC7 : MemStorage :=
  ⟨[⟨1, "user", 1000⟩],
   [⟨1, "UPCOMING", none, none, none, none⟩],
   [⟨1, 1, "1", 1.85⟩],
   [⟨1, 1, 10, 1.85, 18.5, "PENDING"⟩],
   [⟨1, 1, 1, 1.85⟩]⟩

section HelperLemmas

/-- Mapping a function that does not change the value of the predicate
commutes with `find?`. -/
theorem find?_map_comm {α : Type} (f : α → α) (p : α → Bool)
    (hp : ∀ x, p (f x) = p x) (l : List α) :
    (l.map f).find? p = (l.find? p).map f := by
  induction l with
  | nil => rfl
  | cons x xs ih =>
    rw [List.map_cons]
    cases hx : p x
    · rw [List.find?_cons_of_neg _ (by simp [hp, hx]), List.find?_cons_of_neg _ (by simp [hx]), ih]
    · rw [List.find?_cons_of_pos _ (by simp [hp, hx]), List.find?_cons_of_pos _ hx]
      simp

/-- Mapping a function that does not change the predicate and fixes every
element satisfying it does not change `find?`. -/
theorem find?_map_fix {α : Type} (f : α → α) (p : α → Bool)
    (hp : ∀ x, p (f x) = p x) (hfix : ∀ x, p x = true → f x = x) (l : List α) :
    (l.map f).find? p = l.find? p := by
  rw [find?_map_comm f p hp]
  cases h : l.find? p with
  | none => rfl
  | some a => simp [hfix a (List.find?_some h)]

namespace MemStorage

theorem resolveBet_eq (s : MemStorage) (betId : ℕ) (st : String) :
    s.resolveBet betId st = setStatusStep (creditStep s betId st) betId st := rfl

theorem updateUserBalance_matches (s : MemStorage) (id : ℕ) (bal : ℚ) :
    (s.updateUserBalance id bal).«matches» = s.«matches» := by
  unfold updateUserBalance; cases s.getUser id <;> rfl

theorem updateUserBalance_markets (s : MemStorage) (id : ℕ) (bal : ℚ) :
    (s.updateUserBalance id bal).markets = s.markets := by
  unfold updateUserBalance; cases s.getUser id <;> rfl

theorem updateUserBalance_bets (s : MemStorage) (id : ℕ) (bal : ℚ) :
    (s.updateUserBalance id bal).bets = s.bets := by
  unfold updateUserBalance; cases s.getUser id <;> rfl

theorem updateUserBalance_betSelections (s : MemStorage) (id : ℕ) (bal : ℚ) :
    (s.updateUserBalance id bal).betSelections = s.betSelections := by
  unfold updateUserBalance; cases s.getUser id <;> rfl

theorem updateUserBalance_balance (s : MemStorage) (uid : ℕ) (u : User) (bal : ℚ)
    (h : s.getUser uid = some u) :
    (s.updateUserBalance uid bal).userBalance uid = some bal := by
  unfold updateUserBalance
  rw [h]
  unfold userBalance getUser
  dsimp only
  rw [find?_map_comm _ _ (fun x => by cases hx : x.id == uid <;> simp [hx])]
  unfold getUser at h
  rw [h]
  have hu : u.id = uid := by simpa using List.find?_some h
  simp [hu]

theorem creditStep_matches (s : MemStorage) (betId : ℕ) (st : String) :
    (creditStep s betId st).«matches» = s.«matches» := by
  unfold creditStep
  repeat' split
  all_goals simp [updateUserBalance_matches]

theorem creditStep_markets (s : MemStorage) (betId : ℕ) (st : String) :
    (creditStep s betId st).markets = s.markets := by
  unfold creditStep
  repeat' split
  all_goals simp [updateUserBalance_markets]

theorem creditStep_bets (s : MemStorage) (betId : ℕ) (st : String) :
    (creditStep s betId st).bets = s.bets := by
  unfold creditStep
  repeat' split
  all_goals simp [updateUserBalance_bets]

theorem creditStep_betSelections (s : MemStorage) (betId : ℕ) (st : String) :
    (creditStep s betId st).betSelections = s.betSelections := by
  unfold creditStep
  repeat' split
  all_goals simp [updateUserBalance_betSelections]

theorem creditStep_not_won (s : MemStorage) (betId : ℕ) (st : String)
    (h : (st == "WON") = false) : creditStep s betId st = s := by
  unfold creditStep
  rw [h]
  rfl

theorem setStatusStep_matches (s : MemStorage) (betId : ℕ) (st : String) :
    (setStatusStep s betId st).«matches» = s.«matches» := by
  unfold setStatusStep
  split <;> rfl

theorem setStatusStep_markets (s : MemStorage) (betId : ℕ) (st : String) :
    (setStatusStep s betId st).markets = s.markets := by
  unfold setStatusStep
  split <;> rfl

theorem setStatusStep_users (s : MemStorage) (betId : ℕ) (st : String) :
    (setStatusStep s betId st).users = s.users := by
  unfold setStatusStep
  split <;> rfl

theorem setStatusStep_betSelections (s : MemStorage) (betId : ℕ) (st : String) :
    (setStatusStep s betId st).betSelections = s.betSelections := by
  unfold setStatusStep
  split <;> rfl

theorem setStatusStep_bets (s : MemStorage) (betId : ℕ) (st : String) :
    (setStatusStep s betId st).bets =
      if (s.bets.find? (fun b => b.id == betId)).isSome then
        s.bets.map (fun b => if b.id == betId then { b with status := st } else b)
      else s.bets := by
  unfold setStatusStep
  cases hf : s.bets.find? (fun b => b.id == betId) <;> simp [hf]

theorem resolveBet_matches (s : MemStorage) (betId : ℕ) (st : String) :
    (s.resolveBet betId st).«matches» = s.«matches» := by
  rw [resolveBet_eq, setStatusStep_matches, creditStep_matches]

theorem resolveBet_markets (s : MemStorage) (betId : ℕ) (st : String) :
    (s.resolveBet betId st).markets = s.markets := by
  rw [resolveBet_eq, setStatusStep_markets, creditStep_markets]

theorem resolveBet_betSelections (s : MemStorage) (betId : ℕ) (st : String) :
    (s.resolveBet betId st).betSelections = s.betSelections := by
  rw [resolveBet_eq, setStatusStep_betSelections, creditStep_betSelections]

theorem resolveBet_users_not_won (s : MemStorage) (betId : ℕ) (st : String)
    (h : (st == "WON") = false) : (s.resolveBet betId st).users = s.users := by
  rw [resolveBet_eq, setStatusStep_users, creditStep_not_won s betId st h]

theorem resolveBet_bets (s : MemStorage) (betId : ℕ) (st : String) :
    (s.resolveBet betId st).bets =
      if (s.bets.find? (fun b => b.id == betId)).isSome then
        s.bets.map (fun b => if b.id == betId then { b with status := st } else b)
      else s.bets := by
  rw [resolveBet_eq, setStatusStep_bets, creditStep_bets]

theorem ite_update_status_id (x : Bet) (betId : ℕ) (st : String) :
    (if x.id == betId then ({ x with status := st } : Bet) else x).id = x.id := by
  split <;> rfl

theorem ite_update_balance_id (u : User) (uid : ℕ) (bal : ℚ) :
    (if u.id == uid then ({ u with balance := bal } : User) else u).id = u.id := by
  split <;> rfl

theorem resolveBet_betStatus_self (s : MemStorage) (betId : ℕ) (st : String)
    (h : (s.bets.find? (fun b => b.id == betId)).isSome) :
    (s.resolveBet betId st).betStatus betId = some st := by
  unfold betStatus
  rw [resolveBet_bets, if_pos h,
    find?_map_comm _ _ (fun x => by rw [ite_update_status_id])]
  obtain ⟨b, hb⟩ := Option.isSome_iff_exists.mp h
  rw [hb]
  have hbid : b.id = betId := by simpa using List.find?_some hb
  simp [hbid]

theorem resolveBet_betStatus_other (s : MemStorage) (betId : ℕ) (st : String) (id' : ℕ)
    (h : id' ≠ betId) :
    (s.resolveBet betId st).betStatus id' = s.betStatus id' := by
  unfold betStatus
  rw [resolveBet_bets]
  split
  · rw [find?_map_fix _ _ (fun x => by rw [ite_update_status_id])
      (fun x hx => by
        have hxid : x.id = id' := by simpa using hx
        simp [hxid, h])]
  · rfl

theorem resolveBet_bets_ids (s : MemStorage) (betId : ℕ) (st : String) :
    (s.resolveBet betId st).bets.map (fun b => b.id) = s.bets.map (fun b => b.id) := by
  rw [resolveBet_bets]
  split
  · rw [List.map_map]
    have hfun : ((fun b : Bet => b.id) ∘
        (fun b : Bet => if b.id == betId then { b with status := st } else b)) =
        (fun b : Bet => b.id) := by
      funext x
      exact ite_update_status_id x betId st
    rw [hfun]
  · rfl

theorem find?_id_isSome_any (l : List Bet) (i : ℕ) :
    (l.find? (fun b => b.id == i)).isSome = (l.map (fun b => b.id)).any (fun j => j == i) := by
  induction l with
  | nil => rfl
  | cons x xs ih =>
    simp only [List.find?, List.map_cons, List.any_cons]
    cases hx : x.id == i <;> simp [hx, ih]

theorem isSome_find?_of_ids_eq {l₁ l₂ : List Bet}
    (h : l₁.map (fun b => b.id) = l₂.map (fun b => b.id)) (i : ℕ) :
    (l₁.find? (fun b => b.id == i)).isSome = (l₂.find? (fun b => b.id == i)).isSome := by
  rw [find?_id_isSome_any, find?_id_isSome_any, h]

theorem setStatusStep_userBalance (s : MemStorage) (betId : ℕ) (st : String) (uid : ℕ) :
    (setStatusStep s betId st).userBalance uid = s.userBalance uid := by
  unfold userBalance getUser
  rw [setStatusStep_users]

theorem resolveBet_won_balance (s : MemStorage) (betId : ℕ) (bet : Bet) (user : User)
    (hb : s.bets.find? (fun b => b.id == betId) = some bet)
    (hu : s.getUser bet.userId = some user) :
    (s.resolveBet betId "WON").userBalance bet.userId =
      some (user.balance + bet.potentialWin) := by
  rw [resolveBet_eq, setStatusStep_userBalance]
  unfold creditStep
  simp only [hb, hu, beq_self_eq_true, if_true]
  have hid : user.id = bet.userId := by
    unfold getUser at hu
    simpa using List.find?_some hu
  rw [← hid]
  exact updateUserBalance_balance s user.id user _ (by rw [hid]; exact hu)

theorem resolveBet_userBalance_not_won (s : MemStorage) (betId : ℕ) (st : String) (uid : ℕ)
    (h : (st == "WON") = false) :
    (s.resolveBet betId st).userBalance uid = s.userBalance uid := by
  rw [resolveBet_eq, setStatusStep_userBalance]
  unfold userBalance getUser
  rw [creditStep_not_won s betId st h]

end MemStorage

section EvalSelectionsLemmas

open MemStorage

theorem evalSelections_cons (mkts : List Market) (mid : ℕ) (h a hh ha : ℚ)
    (sel : BetSelection) (rest : List BetSelection) (ap : Bool) :
    evalSelections mkts mid h a hh ha (sel :: rest) ap =
      match mkts.find? (fun mk => mk.id == sel.marketId) with
      | none => evalSelections mkts mid h a hh ha rest ap
      | some market =>
        if market.matchId == mid then
          if isBetPush market.type h a then
            evalSelections mkts mid h a hh ha rest true
          else if !isBetWinner market.type h a hh ha then (false, ap)
          else evalSelections mkts mid h a hh ha rest ap
        else evalSelections mkts mid h a hh ha rest ap := rfl

theorem evalSelections_cons_none {mkts : List Market} {sel : BetSelection}
    (mid : ℕ) (h a hh ha : ℚ) (rest : List BetSelection) (ap : Bool)
    (hf : mkts.find? (fun mk => mk.id == sel.marketId) = none) :
    evalSelections mkts mid h a hh ha (sel :: rest) ap =
      evalSelections mkts mid h a hh ha rest ap := by
  rw [evalSelections_cons, hf]

theorem evalSelections_cons_skip {mkts : List Market} {sel : BetSelection} {mk : Market}
    (mid : ℕ) (h a hh ha : ℚ) (rest : List BetSelection) (ap : Bool)
    (hf : mkts.find? (fun mk => mk.id == sel.marketId) = some mk)
    (hmid : (mk.matchId == mid) = false) :
    evalSelections mkts mid h a hh ha (sel :: rest) ap =
      evalSelections mkts mid h a hh ha rest ap := by
  rw [evalSelections_cons, hf]
  simp [hmid]

theorem evalSelections_cons_push {mkts : List Market} {sel : BetSelection} {mk : Market}
    (mid : ℕ) (h a hh ha : ℚ) (rest : List BetSelection) (ap : Bool)
    (hf : mkts.find? (fun mk => mk.id == sel.marketId) = some mk)
    (hmid : (mk.matchId == mid) = true)
    (hp : isBetPush mk.type h a = true) :
    evalSelections mkts mid h a hh ha (sel :: rest) ap =
      evalSelections mkts mid h a hh ha rest true := by
  rw [evalSelections_cons, hf]
  simp [hmid, hp]

theorem evalSelections_cons_lost {mkts : List Market} {sel : BetSelection} {mk : Market}
    (mid : ℕ) (h a hh ha : ℚ) (rest : List BetSelection) (ap : Bool)
    (hf : mkts.find? (fun mk => mk.id == sel.marketId) = some mk)
    (hmid : (mk.matchId == mid) = true)
    (hp : isBetPush mk.type h a = false)
    (hw : isBetWinner mk.type h a hh ha = false) :
    evalSelections mkts mid h a hh ha (sel :: rest) ap = (false, ap) := by
  rw [evalSelections_cons, hf]
  simp [hmid, hp, hw]

theorem evalSelections_cons_won {mkts : List Market} {sel : BetSelection} {mk : Market}
    (mid : ℕ) (h a hh ha : ℚ) (rest : List BetSelection) (ap : Bool)
    (hf : mkts.find? (fun mk => mk.id == sel.marketId) = some mk)
    (hmid : (mk.matchId == mid) = true)
    (hp : isBetPush mk.type h a = false)
    (hw : isBetWinner mk.type h a hh ha = true) :
    evalSelections mkts mid h a hh ha (sel :: rest) ap =
      evalSelections mkts mid h a hh ha rest ap := by
  rw [evalSelections_cons, hf]
  simp [hmid, hp, hw]

theorem evalSelections_fst (mkts : List Market) (mid : ℕ) (h a hh ha : ℚ) :
    ∀ (sels : List BetSelection) (ap : Bool),
      (evalSelections mkts mid h a hh ha sels ap).1 =
        !(sels.any (selectionLost mkts mid h a hh ha)) := by
  intro sels
  induction sels with
  | nil => intro ap; rfl
  | cons sel rest ih =>
    intro ap
    rw [List.any_cons]
    cases hf : mkts.find? (fun mk => mk.id == sel.marketId) with
    | none =>
      rw [evalSelections_cons_none mid h a hh ha rest ap hf, ih ap]
      simp [selectionLost, selectionOutcome, hf]
    | some mk =>
      cases hmid : mk.matchId == mid with
      | false =>
        rw [evalSelections_cons_skip mid h a hh ha rest ap hf hmid, ih ap]
        simp [selectionLost, selectionOutcome, hf, hmid]
      | true =>
        cases hp : isBetPush mk.type h a with
        | true =>
          rw [evalSelections_cons_push mid h a hh ha rest ap hf hmid hp, ih true]
          simp [selectionLost, selectionOutcome, hf, hmid, hp]
        | false =>
          cases hw : isBetWinner mk.type h a hh ha with
          | false =>
            rw [evalSelections_cons_lost mid h a hh ha rest ap hf hmid hp hw]
            simp [selectionLost, selectionOutcome, hf, hmid, hp, hw]
          | true =>
            rw [evalSelections_cons_won mid h a hh ha rest ap hf hmid hp hw, ih ap]
            simp [selectionLost, selectionOutcome, hf, hmid, hp, hw]

theorem evalSelections_snd (mkts : List Market) (mid : ℕ) (h a hh ha : ℚ) :
    ∀ (sels : List BetSelection) (ap : Bool),
      sels.any (selectionLost mkts mid h a hh ha) = false →
      (evalSelections mkts mid h a hh ha sels ap).2 =
        (ap || sels.any (selectionPush mkts mid h a hh ha)) := by
  intro sels
  induction sels with
  | nil => intro ap _; simp [evalSelections]
  | cons sel rest ih =>
    intro ap hnl
    rw [List.any_cons] at hnl ⊢
    cases hf : mkts.find? (fun mk => mk.id == sel.marketId) with
    | none =>
      have h2 : selectionPush mkts mid h a hh ha sel = false := by
        simp [selectionPush, selectionOutcome, hf]
      have h1 : selectionLost mkts mid h a hh ha sel = false := by
        simp [selectionLost, selectionOutcome, hf]
      rw [h1, Bool.false_or] at hnl
      rw [h2, Bool.false_or, evalSelections_cons_none mid h a hh ha rest ap hf]
      exact ih ap hnl
    | some mk =>
      cases hmid : mk.matchId == mid with
      | false =>
        have h2 : selectionPush mkts mid h a hh ha sel = false := by
          simp [selectionPush, selectionOutcome, hf, hmid]
        have h1 : selectionLost mkts mid h a hh ha sel = false := by
          simp [selectionLost, selectionOutcome, hf, hmid]
        rw [h1, Bool.false_or] at hnl
        rw [h2, Bool.false_or, evalSelections_cons_skip mid h a hh ha rest ap hf hmid]
        exact ih ap hnl
      | true =>
        cases hp : isBetPush mk.type h a with
        | true =>
          have h2 : selectionPush mkts mid h a hh ha sel = true := by
            simp [selectionPush, selectionOutcome, hf, hmid, hp]
          have h1 : selectionLost mkts mid h a hh ha sel = false := by
            simp [selectionLost, selectionOutcome, hf, hmid, hp]
          rw [h1, Bool.false_or] at hnl
          rw [h2, Bool.true_or, evalSelections_cons_push mid h a hh ha rest ap hf hmid hp,
            ih true hnl, Bool.true_or, Bool.or_true]
        | false =>
          cases hw : isBetWinner mk.type h a hh ha with
          | false =>
            exfalso
            have h1 : selectionLost mkts mid h a hh ha sel = true := by
              simp [selectionLost, selectionOutcome, hf, hmid, hp, hw]
            rw [h1, Bool.true_or] at hnl
            exact Bool.noConfusion hnl
          | true =>
            have h2 : selectionPush mkts mid h a hh ha sel = false := by
              simp [selectionPush, selectionOutcome, hf, hmid, hp]
            have h1 : selectionLost mkts mid h a hh ha sel = false := by
              simp [selectionLost, selectionOutcome, hf, hmid, hp, hw]
            rw [h1, Bool.false_or] at hnl
            rw [h2, Bool.false_or, evalSelections_cons_won mid h a hh ha rest ap hf hmid hp hw]
            exact ih ap hnl

theorem evalSelections_all_none (mkts : List Market) (mid : ℕ) (h a hh ha : ℚ) :
    ∀ (sels : List BetSelection) (ap : Bool),
      (∀ sel ∈ sels, selectionOutcome mkts mid h a hh ha sel = none) →
      evalSelections mkts mid h a hh ha sels ap = (true, ap) := by
  intro sels
  induction sels with
  | nil => intro ap _; rfl
  | cons sel rest ih =>
    intro ap hall
    have hsel := hall sel (List.mem_cons_self sel rest)
    unfold selectionOutcome at hsel
    cases hf : mkts.find? (fun mk => mk.id == sel.marketId) with
    | none =>
      rw [evalSelections_cons_none mid h a hh ha rest ap hf]
      exact ih ap (fun x hx => hall x (List.mem_cons_of_mem sel hx))
    | some mk =>
      rw [hf] at hsel
      cases hmid : mk.matchId == mid with
      | false =>
        rw [evalSelections_cons_skip mid h a hh ha rest ap hf hmid]
        exact ih ap (fun x hx => hall x (List.mem_cons_of_mem sel hx))
      | true => simp [hmid] at hsel

end EvalSelectionsLemmas

namespace MemStorage

theorem settleStep_not_pending (mid : ℕ) (h a hh ha : ℚ) (acc : MemStorage) (bet : Bet)
    (hp : (bet.status == "PENDING") = false) :
    settleStep mid h a hh ha acc bet = acc := by
  unfold settleStep
  rw [hp]
  simp

theorem settleStep_markets (mid : ℕ) (h a hh ha : ℚ) (acc : MemStorage) (bet : Bet) :
    (settleStep mid h a hh ha acc bet).markets = acc.markets := by
  unfold settleStep
  dsimp only
  split
  · split
    · split
      · exact resolveBet_markets acc bet.id "PUSH"
      · exact resolveBet_markets acc bet.id "WON"
    · exact resolveBet_markets acc bet.id "LOST"
  · rfl

theorem settleStep_matches (mid : ℕ) (h a hh ha : ℚ) (acc : MemStorage) (bet : Bet) :
    (settleStep mid h a hh ha acc bet).«matches» = acc.«matches» := by
  unfold settleStep
  dsimp only
  split
  · split
    · split
      · exact resolveBet_matches acc bet.id "PUSH"
      · exact resolveBet_matches acc bet.id "WON"
    · exact resolveBet_matches acc bet.id "LOST"
  · rfl

theorem settleStep_betSelections (mid : ℕ) (h a hh ha : ℚ) (acc : MemStorage) (bet : Bet) :
    (settleStep mid h a hh ha acc bet).betSelections = acc.betSelections := by
  unfold settleStep
  dsimp only
  split
  · split
    · split
      · exact resolveBet_betSelections acc bet.id "PUSH"
      · exact resolveBet_betSelections acc bet.id "WON"
    · exact resolveBet_betSelections acc bet.id "LOST"
  · rfl

theorem settleStep_bets_ids (mid : ℕ) (h a hh ha : ℚ) (acc : MemStorage) (bet : Bet) :
    (settleStep mid h a hh ha acc bet).bets.map (fun b => b.id) =
      acc.bets.map (fun b => b.id) := by
  unfold settleStep
  dsimp only
  split
  · split
    · split
      · exact resolveBet_bets_ids acc bet.id "PUSH"
      · exact resolveBet_bets_ids acc bet.id "WON"
    · exact resolveBet_bets_ids acc bet.id "LOST"
  · rfl

theorem settleStep_pending_status (mid : ℕ) (h a hh ha : ℚ) (acc : MemStorage) (bet : Bet)
    (hpend : bet.status = "PENDING")
    (hsome : (acc.bets.find? (fun b => b.id == bet.id)).isSome = true) :
    (settleStep mid h a hh ha acc bet).betStatus bet.id =
      some (aggregateStatus acc.markets mid h a hh ha
        (acc.betSelections.filter (fun sel => sel.betId == bet.id))) := by
  unfold settleStep aggregateStatus
  rw [hpend]
  simp only [beq_self_eq_true, if_true]
  cases hl : (acc.betSelections.filter (fun sel => sel.betId == bet.id)).any
      (selectionLost acc.markets mid h a hh ha) with
  | true =>
    have h1 : (evalSelections acc.markets mid h a hh ha
        (acc.betSelections.filter (fun sel => sel.betId == bet.id)) false).1 = false := by
      rw [evalSelections_fst, hl]
      rfl
    rw [h1]
    simp only [Bool.false_eq_true, if_false, hl, if_true]
    exact resolveBet_betStatus_self acc bet.id "LOST" hsome
  | false =>
    have h1 : (evalSelections acc.markets mid h a hh ha
        (acc.betSelections.filter (fun sel => sel.betId == bet.id)) false).1 = true := by
      rw [evalSelections_fst, hl]
      rfl
    rw [h1]
    cases hpu : (acc.betSelections.filter (fun sel => sel.betId == bet.id)).any
        (selectionPush acc.markets mid h a hh ha) with
    | true =>
      have h2 : (evalSelections acc.markets mid h a hh ha
          (acc.betSelections.filter (fun sel => sel.betId == bet.id)) false).2 = true := by
        rw [evalSelections_snd _ _ _ _ _ _ _ _ hl, hpu]
        rfl
      rw [h2]
      simp only [hl, Bool.false_eq_true, if_false, hpu, if_true]
      exact resolveBet_betStatus_self acc bet.id "PUSH" hsome
    | false =>
      have h2 : (evalSelections acc.markets mid h a hh ha
          (acc.betSelections.filter (fun sel => sel.betId == bet.id)) false).2 = false := by
        rw [evalSelections_snd _ _ _ _ _ _ _ _ hl, hpu]
        rfl
      rw [h2]
      simp only [hl, hpu, Bool.false_eq_true, if_false]
      exact resolveBet_betStatus_self acc bet.id "WON" hsome

theorem settleStep_betStatus_other (mid : ℕ) (h a hh ha : ℚ) (acc : MemStorage) (bet : Bet)
    (tid : ℕ) (hne : bet.status = "PENDING" → bet.id ≠ tid) :
    (settleStep mid h a hh ha acc bet).betStatus tid = acc.betStatus tid := by
  cases hpend : bet.status == "PENDING" with
  | false => rw [settleStep_not_pending mid h a hh ha acc bet hpend]
  | true =>
    have hne' : tid ≠ bet.id := (hne (by simpa using hpend)).symm
    unfold settleStep
    rw [hpend]
    simp only [if_true]
    repeat' split
    all_goals exact resolveBet_betStatus_other acc bet.id _ tid hne'

theorem foldl_settle_preserve (mid : ℕ) (h a hh ha : ℚ) :
    ∀ (l : List Bet) (acc : MemStorage) (tid : ℕ),
      (∀ b' ∈ l, b'.status = "PENDING" → b'.id ≠ tid) →
      (l.foldl (settleStep mid h a hh ha) acc).betStatus tid = acc.betStatus tid := by
  intro l
  induction l with
  | nil => intro acc tid _; rfl
  | cons hd t ih =>
    intro acc tid hcond
    rw [List.foldl_cons,
      ih (settleStep mid h a hh ha acc hd) tid
        (fun b' hb' => hcond b' (List.mem_cons_of_mem hd hb')),
      settleStep_betStatus_other mid h a hh ha acc hd tid
        (hcond hd (List.mem_cons_self hd t))]

theorem foldl_settle_markets (mid : ℕ) (h a hh ha : ℚ) :
    ∀ (l : List Bet) (acc : MemStorage),
      (l.foldl (settleStep mid h a hh ha) acc).markets = acc.markets := by
  intro l
  induction l with
  | nil => intro acc; rfl
  | cons hd t ih =>
    intro acc
    rw [List.foldl_cons, ih (settleStep mid h a hh ha acc hd), settleStep_markets]

theorem foldl_settle_matches (mid : ℕ) (h a hh ha : ℚ) :
    ∀ (l : List Bet) (acc : MemStorage),
      (l.foldl (settleStep mid h a hh ha) acc).«matches» = acc.«matches» := by
  intro l
  induction l with
  | nil => intro acc; rfl
  | cons hd t ih =>
    intro acc
    rw [List.foldl_cons, ih (settleStep mid h a hh ha acc hd), settleStep_matches]

theorem foldl_settle_betSelections (mid : ℕ) (h a hh ha : ℚ) :
    ∀ (l : List Bet) (acc : MemStorage),
      (l.foldl (settleStep mid h a hh ha) acc).betSelections = acc.betSelections := by
  intro l
  induction l with
  | nil => intro acc; rfl
  | cons hd t ih =>
    intro acc
    rw [List.foldl_cons, ih (settleStep mid h a hh ha acc hd), settleStep_betSelections]

theorem foldl_settle_status (mid : ℕ) (h a hh ha : ℚ) (M : List Market)
    (SELS : List BetSelection) :
    ∀ (l : List Bet) (acc : MemStorage) (bet : Bet),
      bet ∈ l →
      List.Pairwise (fun b b' : Bet => b.id ≠ b'.id) l →
      acc.markets = M →
      acc.betSelections = SELS →
      (acc.bets.find? (fun b => b.id == bet.id)).isSome = true →
      bet.status = "PENDING" →
      (l.foldl (settleStep mid h a hh ha) acc).betStatus bet.id =
        some (aggregateStatus M mid h a hh ha
          (SELS.filter (fun sel => sel.betId == bet.id))) := by
  intro l
  induction l with
  | nil => intro acc bet hmem; exact absurd hmem (List.not_mem_nil bet)
  | cons hd t ih =>
    intro acc bet hmem hpw hm hs hsome hpend
    rw [List.foldl_cons]
    rcases List.mem_cons.mp hmem with heq | hmemt
    · subst heq
      rw [foldl_settle_preserve mid h a hh ha t _ bet.id
        (fun b' hb' _ => ((List.pairwise_cons.mp hpw).1 b' hb').symm),
        settleStep_pending_status mid h a hh ha acc bet hpend hsome, hm, hs]
    · exact ih (settleStep mid h a hh ha acc hd) bet hmemt (List.pairwise_cons.mp hpw).2
        (by rw [settleStep_markets, hm])
        (by rw [settleStep_betSelections, hs])
        (by rw [isSome_find?_of_ids_eq (settleStep_bets_ids mid h a hh ha acc hd) bet.id]
            exact hsome)
        hpend

theorem resolveBet_pending_mem (acc : MemStorage) (betId : ℕ) (st : String)
    (hst : st ≠ "PENDING") (b' : Bet) (hb' : b' ∈ (acc.resolveBet betId st).bets)
    (hpend : b'.status = "PENDING") : b' ∈ acc.bets ∧ b'.id ≠ betId := by
  rw [resolveBet_bets] at hb'
  by_cases hf : (acc.bets.find? (fun b => b.id == betId)).isSome = true
  · rw [if_pos hf] at hb'
    obtain ⟨b0, hb0, heq⟩ := List.mem_map.mp hb'
    by_cases h0 : (b0.id == betId) = true
    · exfalso
      rw [if_pos h0] at heq
      rw [← heq] at hpend
      exact hst hpend
    · have hb0' : b' = b0 := by rw [← heq]; simp [h0]
      subst hb0'
      exact ⟨hb0, by simpa using h0⟩
  · rw [if_neg hf] at hb'
    refine ⟨hb', fun hcontra => hf ?_⟩
    have hex : ∃ x, x ∈ acc.bets ∧ (fun b => b.id == betId) x = true :=
      ⟨b', hb', by simp [hcontra]⟩
    simpa using List.find?_isSome.mpr hex

theorem settleStep_pending_mem (mid : ℕ) (h a hh ha : ℚ) (acc : MemStorage) (bet : Bet)
    (hhd : (bet.status == "PENDING") = true) (b' : Bet)
    (hb' : b' ∈ (settleStep mid h a hh ha acc bet).bets)
    (hpend : b'.status = "PENDING") : b' ∈ acc.bets ∧ b'.id ≠ bet.id := by
  unfold settleStep at hb'
  rw [hhd] at hb'
  simp only [if_true] at hb'
  split at hb'
  · split at hb'
    · exact resolveBet_pending_mem acc bet.id "PUSH" (by decide) b' hb' hpend
    · exact resolveBet_pending_mem acc bet.id "WON" (by decide) b' hb' hpend
  · exact resolveBet_pending_mem acc bet.id "LOST" (by decide) b' hb' hpend

theorem foldl_settle_no_pending (mid : ℕ) (h a hh ha : ℚ) :
    ∀ (l : List Bet) (acc : MemStorage),
      (∀ b' ∈ acc.bets, b'.status = "PENDING" →
        ∃ b'' ∈ l, b''.id = b'.id ∧ b''.status = "PENDING") →
      ∀ b' ∈ (l.foldl (settleStep mid h a hh ha) acc).bets, b'.status ≠ "PENDING" := by
  intro l
  induction l with
  | nil =>
    intro acc hinv b' hb' hpend
    obtain ⟨b'', hb'', _⟩ := hinv b' hb' hpend
    exact absurd hb'' (List.not_mem_nil b'')
  | cons hd t ih =>
    intro acc hinv
    rw [List.foldl_cons]
    apply ih
    intro b' hb' hpend
    cases hhd : hd.status == "PENDING" with
    | false =>
      rw [settleStep_not_pending mid h a hh ha acc hd hhd] at hb'
      obtain ⟨b'', hmem, hid, hp⟩ := hinv b' hb' hpend
      rcases List.mem_cons.mp hmem with heq | hmemt
      · exact absurd (heq ▸ hp) (by simpa using hhd)
      · exact ⟨b'', hmemt, hid, hp⟩
    | true =>
      obtain ⟨hmemacc, hne⟩ := settleStep_pending_mem mid h a hh ha acc hd hhd b' hb' hpend
      obtain ⟨b'', hmem, hid, hp⟩ := hinv b' hmemacc hpend
      rcases List.mem_cons.mp hmem with heq | hmemt
      · exact absurd (heq ▸ hid : hd.id = b'.id) (fun hcontra => hne hcontra.symm)
      · exact ⟨b'', hmemt, hid, hp⟩

theorem foldl_settle_id (mid : ℕ) (h a hh ha : ℚ) :
    ∀ (l : List Bet) (acc : MemStorage),
      (∀ b ∈ l, b.status ≠ "PENDING") →
      l.foldl (settleStep mid h a hh ha) acc = acc := by
  intro l
  induction l with
  | nil => intro acc _; rfl
  | cons hd t ih =>
    intro acc hall
    rw [List.foldl_cons,
      settleStep_not_pending mid h a hh ha acc hd
        (by simpa using hall hd (List.mem_cons_self hd t)),
      ih acc (fun b hb => hall b (List.mem_cons_of_mem hd hb))]

theorem find?_eq_of_mem_of_pairwise (l : List Bet) (bet : Bet) (hmem : bet ∈ l)
    (hpw : List.Pairwise (fun b b' : Bet => b.id ≠ b'.id) l) :
    l.find? (fun b => b.id == bet.id) = some bet := by
  induction l with
  | nil => exact absurd hmem (List.not_mem_nil bet)
  | cons hd t ih =>
    rcases List.mem_cons.mp hmem with heq | hmemt
    · subst heq
      exact List.find?_cons_of_pos _ (by simp)
    · rw [List.find?_cons_of_neg _
        (by simpa using (List.pairwise_cons.mp hpw).1 bet hmemt)]
      exact ih hmemt (List.pairwise_cons.mp hpw).2

theorem resolveBetsForMatch_eq_fold (s : MemStorage) (mid : ℕ) (m : Match) (hs aw : ℚ)
    (hm : s.«matches».find? (fun mm => mm.id == mid) = some m)
    (hstat : m.status = "FINISHED")
    (hhs : m.homeScore = some hs) (haw : m.awayScore = some aw) :
    s.resolveBetsForMatch mid =
      s.bets.foldl (settleStep mid hs aw (m.htHomeScore.getD 0) (m.htAwayScore.getD 0)) s := by
  unfold resolveBetsForMatch
  rw [hm]
  simp [hstat, hhs, haw]

theorem resolveBetsForMatch_early (s : MemStorage) (mid : ℕ)
    (h : s.«matches».find? (fun mm => mm.id == mid) = none ∨
      ∃ m, s.«matches».find? (fun mm => mm.id == mid) = some m ∧
        (m.status ≠ "FINISHED" ∨ m.homeScore = none ∨ m.awayScore = none)) :
    s.resolveBetsForMatch mid = s := by
  unfold resolveBetsForMatch
  rcases h with hnone | ⟨m, hm, hbad⟩
  · rw [hnone]
  · rw [hm]
    rcases hbad with hstat | hhs | haw
    · have hne : (m.status == "FINISHED") = false := by simpa using hstat
      simp [hne]
    · cases hstat : m.status == "FINISHED" <;> simp [hstat, hhs]
    · cases hstat : m.status == "FINISHED" <;> cases hhs : m.homeScore <;> simp [hstat, hhs, haw]

end MemStorage

end HelperLemmas

example : MemStorage.isBetWinner "1" 2 1 0 0 = true := by decide

example : MemStorage.isBetWinner "OVER_2_5" 2 1 0 0 = true := by
  rw [show MemStorage.isBetWinner "OVER_2_5" 2 1 0 0 = decide (((2 : ℚ) + 1) > 2.5) from rfl]
  norm_num

example : MemStorage.isBetWinner "OVER_2_5" 1 1 0 0 = false := by
  rw [show MemStorage.isBetWinner "OVER_2_5" 1 1 0 0 = decide (((1 : ℚ) + 1) > 2.5) from rfl]
  norm_num

example : MemStorage.isBetWinner "WIN_BOTH_HALVES_1" 2 1 1 0 = false := by
  rw [show MemStorage.isBetWinner "WIN_BOTH_HALVES_1" 2 1 1 0 =
      (decide ((1 : ℚ) > 0) && decide ((2 : ℚ) - 1 > 1 - 0)) from rfl]
  simp only [Bool.and_eq_false_iff, decide_eq_false_iff_not, decide_eq_true_eq]
  norm_num

example : MemStorage.isBetWinner "FOOBAR" 5 0 0 0 = false := by decide

example : MemStorage.isBetPush "DNB_1" 1 1 = true := by decide

/-- C1: for every market type of the rule table and all non-negative integer
scores, the settlement evaluator `isBetWinner` returns true exactly when the
tabulated WIN condition holds, and it returns false (LOSE) on every market
type string outside the table. -/
theorem C1_isBetWinner_table (h a hh ha : ℕ) :
    (∀ mt : String, mt ∉ sectionFourOneMarketTypes →
      MemStorage.isBetWinner mt h a hh ha = false)
    ∧ (MemStorage.isBetWinner "1" h a hh ha = true ↔ h > a)
    ∧ (MemStorage.isBetWinner "X" h a hh ha = true ↔ h = a)
    ∧ (MemStorage.isBetWinner "2" h a hh ha = true ↔ a > h)
    ∧ (MemStorage.isBetWinner "OVER_1_5" h a hh ha = true ↔ (h : ℚ) + (a : ℚ) > 1.5)
    ∧ (MemStorage.isBetWinner "UNDER_1_5" h a hh ha = true ↔ (h : ℚ) + (a : ℚ) < 1.5)
    ∧ (MemStorage.isBetWinner "OVER_2_5" h a hh ha = true ↔ (h : ℚ) + (a : ℚ) > 2.5)
    ∧ (MemStorage.isBetWinner "UNDER_2_5" h a hh ha = true ↔ (h : ℚ) + (a : ℚ) < 2.5)
    ∧ (MemStorage.isBetWinner "OVER_3_5" h a hh ha = true ↔ (h : ℚ) + (a : ℚ) > 3.5)
    ∧ (MemStorage.isBetWinner "UNDER_3_5" h a hh ha = true ↔ (h : ℚ) + (a : ℚ) < 3.5)
    ∧ (MemStorage.isBetWinner "BTTS_YES" h a hh ha = true ↔ (h > 0 ∧ a > 0))
    ∧ (MemStorage.isBetWinner "BTTS_NO" h a hh ha = true ↔ (h = 0 ∨ a = 0))
    ∧ (MemStorage.isBetWinner "DNB_1" h a hh ha = true ↔ h > a)
    ∧ (MemStorage.isBetWinner "DNB_2" h a hh ha = true ↔ a > h)
    ∧ (MemStorage.isBetWinner "DC_1X" h a hh ha = true ↔ h ≥ a)
    ∧ (MemStorage.isBetWinner "DC_12" h a hh ha = true ↔ h ≠ a)
    ∧ (MemStorage.isBetWinner "DC_X2" h a hh ha = true ↔ a ≥ h)
    ∧ (MemStorage.isBetWinner "HT_1" h a hh ha = true ↔ hh > ha)
    ∧ (MemStorage.isBetWinner "HT_X" h a hh ha = true ↔ hh = ha)
    ∧ (MemStorage.isBetWinner "HT_2" h a hh ha = true ↔ ha > hh)
    ∧ (MemStorage.isBetWinner "HT_OVER_0_5" h a hh ha = true ↔ (hh : ℚ) + (ha : ℚ) > 0.5)
    ∧ (MemStorage.isBetWinner "HT_UNDER_0_5" h a hh ha = true ↔ (hh : ℚ) + (ha : ℚ) < 0.5)
    ∧ (MemStorage.isBetWinner "HT_OVER_1_5" h a hh ha = true ↔ (hh : ℚ) + (ha : ℚ) > 1.5)
    ∧ (MemStorage.isBetWinner "HT_UNDER_1_5" h a hh ha = true ↔ (hh : ℚ) + (ha : ℚ) < 1.5)
    ∧ (MemStorage.isBetWinner "HT_BTTS_YES" h a hh ha = true ↔ (hh > 0 ∧ ha > 0))
    ∧ (MemStorage.isBetWinner "HT_BTTS_NO" h a hh ha = true ↔ (hh = 0 ∨ ha = 0))
    ∧ (MemStorage.isBetWinner "HANDICAP_1_MINUS_1" h a hh ha = true ↔ (h : ℚ) - 1 > (a : ℚ))
    ∧ (MemStorage.isBetWinner "HANDICAP_1_MINUS_2" h a hh ha = true ↔ (h : ℚ) - 2 > (a : ℚ))
    ∧ (MemStorage.isBetWinner "HANDICAP_2_MINUS_1" h a hh ha = true ↔ (h : ℚ) < (a : ℚ) - 1)
    ∧ (MemStorage.isBetWinner "HANDICAP_2_MINUS_2" h a hh ha = true ↔ (h : ℚ) < (a : ℚ) - 2)
    ∧ (MemStorage.isBetWinner "WIN_BOTH_HALVES_1" h a hh ha = true ↔ (hh > ha ∧ (h : ℚ) - (hh : ℚ) > (a : ℚ) - (ha : ℚ)))
    ∧ (MemStorage.isBetWinner "WIN_BOTH_HALVES_2" h a hh ha = true ↔ (ha > hh ∧ (a : ℚ) - (ha : ℚ) > (h : ℚ) - (hh : ℚ)))
    ∧ (MemStorage.isBetWinner "WIN_EITHER_HALF_1" h a hh ha = true ↔ (hh > ha ∨ (h : ℚ) - (hh : ℚ) > (a : ℚ) - (ha : ℚ)))
    ∧ (MemStorage.isBetWinner "WIN_EITHER_HALF_2" h a hh ha = true ↔ (ha > hh ∨ (a : ℚ) - (ha : ℚ) > (h : ℚ) - (hh : ℚ))) := by
  refine ⟨?_, ?_, ?_, ?_, ?_, ?_, ?_, ?_, ?_, ?_, ?_, ?_, ?_, ?_, ?_, ?_, ?_, ?_, ?_, ?_, ?_, ?_, ?_, ?_, ?_, ?_, ?_, ?_, ?_, ?_, ?_, ?_, ?_, ?_⟩
  · intro mt hmt
    simp only [sectionFourOneMarketTypes, List.mem_cons, List.mem_singleton, not_or,
      ← ne_eq] at hmt
    obtain ⟨n1, n2, n3, n4, n5, n6, n7, n8, n9, n10, n11, n12, n13, n14, n15, n16, n17, n18, n19, n20, n21, n22, n23, n24, n25, n26, n27, n28, n29, n30, n31, n32, n33, _⟩ := hmt
    simp only [MemStorage.isBetWinner, if_neg n1, if_neg n2, if_neg n3, if_neg n4, if_neg n5, if_neg n6, if_neg n7, if_neg n8, if_neg n9, if_neg n10, if_neg n11, if_neg n12, if_neg n13, if_neg n14, if_neg n15, if_neg n16, if_neg n17, if_neg n18, if_neg n19, if_neg n20, if_neg n21, if_neg n22, if_neg n23, if_neg n24, if_neg n25, if_neg n26, if_neg n27, if_neg n28, if_neg n29, if_neg n30, if_neg n31, if_neg n32, if_neg n33]
  · rw [show MemStorage.isBetWinner "1" h a hh ha = decide ((h : ℚ) > (a : ℚ)) from rfl,
      decide_eq_true_iff]
    exact_mod_cast Iff.rfl
  · rw [show MemStorage.isBetWinner "X" h a hh ha = decide ((h : ℚ) = (a : ℚ)) from rfl,
      decide_eq_true_iff]
    exact_mod_cast Iff.rfl
  · rw [show MemStorage.isBetWinner "2" h a hh ha = decide ((a : ℚ) > (h : ℚ)) from rfl,
      decide_eq_true_iff]
    exact_mod_cast Iff.rfl
  · rw [show MemStorage.isBetWinner "OVER_1_5" h a hh ha = decide ((h : ℚ) + (a : ℚ) > 1.5) from rfl,
      decide_eq_true_iff]
  · rw [show MemStorage.isBetWinner "UNDER_1_5" h a hh ha = decide ((h : ℚ) + (a : ℚ) < 1.5) from rfl,
      decide_eq_true_iff]
  · rw [show MemStorage.isBetWinner "OVER_2_5" h a hh ha = decide ((h : ℚ) + (a : ℚ) > 2.5) from rfl,
      decide_eq_true_iff]
  · rw [show MemStorage.isBetWinner "UNDER_2_5" h a hh ha = decide ((h : ℚ) + (a : ℚ) < 2.5) from rfl,
      decide_eq_true_iff]
  · rw [show MemStorage.isBetWinner "OVER_3_5" h a hh ha = decide ((h : ℚ) + (a : ℚ) > 3.5) from rfl,
      decide_eq_true_iff]
  · rw [show MemStorage.isBetWinner "UNDER_3_5" h a hh ha = decide ((h : ℚ) + (a : ℚ) < 3.5) from rfl,
      decide_eq_true_iff]
  · rw [show MemStorage.isBetWinner "BTTS_YES" h a hh ha =
      (decide ((h : ℚ) > 0) && decide ((a : ℚ) > 0)) from rfl,
      Bool.and_eq_true, decide_eq_true_iff, decide_eq_true_iff]
    exact_mod_cast Iff.rfl
  · rw [show MemStorage.isBetWinner "BTTS_NO" h a hh ha =
      (decide ((h : ℚ) = 0) || decide ((a : ℚ) = 0)) from rfl,
      Bool.or_eq_true, decide_eq_true_iff, decide_eq_true_iff]
    exact_mod_cast Iff.rfl
  · rw [show MemStorage.isBetWinner "DNB_1" h a hh ha = decide ((h : ℚ) > (a : ℚ)) from rfl,
      decide_eq_true_iff]
    exact_mod_cast Iff.rfl
  · rw [show MemStorage.isBetWinner "DNB_2" h a hh ha = decide ((a : ℚ) > (h : ℚ)) from rfl,
      decide_eq_true_iff]
    exact_mod_cast Iff.rfl
  · rw [show MemStorage.isBetWinner "DC_1X" h a hh ha = decide ((h : ℚ) ≥ (a : ℚ)) from rfl,
      decide_eq_true_iff]
    exact_mod_cast Iff.rfl
  · rw [show MemStorage.isBetWinner "DC_12" h a hh ha = decide ((h : ℚ) ≠ (a : ℚ)) from rfl,
      decide_eq_true_iff]
    exact_mod_cast Iff.rfl
  · rw [show MemStorage.isBetWinner "DC_X2" h a hh ha = decide ((a : ℚ) ≥ (h : ℚ)) from rfl,
      decide_eq_true_iff]
    exact_mod_cast Iff.rfl
  · rw [show MemStorage.isBetWinner "HT_1" h a hh ha = decide ((hh : ℚ) > (ha : ℚ)) from rfl,
      decide_eq_true_iff]
    exact_mod_cast Iff.rfl
  · rw [show MemStorage.isBetWinner "HT_X" h a hh ha = decide ((hh : ℚ) = (ha : ℚ)) from rfl,
      decide_eq_true_iff]
    exact_mod_cast Iff.rfl
  · rw [show MemStorage.isBetWinner "HT_2" h a hh ha = decide ((ha : ℚ) > (hh : ℚ)) from rfl,
      decide_eq_true_iff]
    exact_mod_cast Iff.rfl
  · rw [show MemStorage.isBetWinner "HT_OVER_0_5" h a hh ha = decide ((hh : ℚ) + (ha : ℚ) > 0.5) from rfl,
      decide_eq_true_iff]
  · rw [show MemStorage.isBetWinner "HT_UNDER_0_5" h a hh ha = decide ((hh : ℚ) + (ha : ℚ) < 0.5) from rfl,
      decide_eq_true_iff]
  · rw [show MemStorage.isBetWinner "HT_OVER_1_5" h a hh ha = decide ((hh : ℚ) + (ha : ℚ) > 1.5) from rfl,
      decide_eq_true_iff]
  · rw [show MemStorage.isBetWinner "HT_UNDER_1_5" h a hh ha = decide ((hh : ℚ) + (ha : ℚ) < 1.5) from rfl,
      decide_eq_true_iff]
  · rw [show MemStorage.isBetWinner "HT_BTTS_YES" h a hh ha =
      (decide ((hh : ℚ) > 0) && decide ((ha : ℚ) > 0)) from rfl,
      Bool.and_eq_true, decide_eq_true_iff, decide_eq_true_iff]
    exact_mod_cast Iff.rfl
  · rw [show MemStorage.isBetWinner "HT_BTTS_NO" h a hh ha =
      (decide ((hh : ℚ) = 0) || decide ((ha : ℚ) = 0)) from rfl,
      Bool.or_eq_true, decide_eq_true_iff, decide_eq_true_iff]
    exact_mod_cast Iff.rfl
  · rw [show MemStorage.isBetWinner "HANDICAP_1_MINUS_1" h a hh ha = decide ((h : ℚ) - 1 > (a : ℚ)) from rfl,
      decide_eq_true_iff]
  · rw [show MemStorage.isBetWinner "HANDICAP_1_MINUS_2" h a hh ha = decide ((h : ℚ) - 2 > (a : ℚ)) from rfl,
      decide_eq_true_iff]
  · rw [show MemStorage.isBetWinner "HANDICAP_2_MINUS_1" h a hh ha = decide ((h : ℚ) < (a : ℚ) - 1) from rfl,
      decide_eq_true_iff]
  · rw [show MemStorage.isBetWinner "HANDICAP_2_MINUS_2" h a hh ha = decide ((h : ℚ) < (a : ℚ) - 2) from rfl,
      decide_eq_true_iff]
  · rw [show MemStorage.isBetWinner "WIN_BOTH_HALVES_1" h a hh ha =
      (decide ((hh : ℚ) > (ha : ℚ)) && decide ((h : ℚ) - (hh : ℚ) > (a : ℚ) - (ha : ℚ))) from rfl,
      Bool.and_eq_true, decide_eq_true_iff, decide_eq_true_iff]
    exact_mod_cast Iff.rfl
  · rw [show MemStorage.isBetWinner "WIN_BOTH_HALVES_2" h a hh ha =
      (decide ((ha : ℚ) > (hh : ℚ)) && decide ((a : ℚ) - (ha : ℚ) > (h : ℚ) - (hh : ℚ))) from rfl,
      Bool.and_eq_true, decide_eq_true_iff, decide_eq_true_iff]
    exact_mod_cast Iff.rfl
  · rw [show MemStorage.isBetWinner "WIN_EITHER_HALF_1" h a hh ha =
      (decide ((hh : ℚ) > (ha : ℚ)) || decide ((h : ℚ) - (hh : ℚ) > (a : ℚ) - (ha : ℚ))) from rfl,
      Bool.or_eq_true, decide_eq_true_iff, decide_eq_true_iff]
    exact_mod_cast Iff.rfl
  · rw [show MemStorage.isBetWinner "WIN_EITHER_HALF_2" h a hh ha =
      (decide ((ha : ℚ) > (hh : ℚ)) || decide ((a : ℚ) - (ha : ℚ) > (h : ℚ) - (hh : ℚ))) from rfl,
      Bool.or_eq_true, decide_eq_true_iff, decide_eq_true_iff]
    exact_mod_cast Iff.rfl

/-- Witness for C1 at concrete scores 2-1 (half-time 1-0) and the unknown
market type FOOBAR. -/
theorem C1_isBetWinner_table_witness :
    MemStorage.isBetWinner "FOOBAR" ((2 : ℕ) : ℚ) ((1 : ℕ) : ℚ) ((1 : ℕ) : ℚ) ((0 : ℕ) : ℚ) = false :=
  (C1_isBetWinner_table 2 1 1 0).1 "FOOBAR" (by decide)

/-- C5: `isBetPush` returns true exactly for market types DNB_1 and DNB_2 with
equal scores, and false for every other market type, including ties on 1X2,
double-chance and handicap markets. -/
theorem C5_isBetPush_iff (mt : String) (h a : ℕ) :
    MemStorage.isBetPush mt h a = true ↔ ((mt = "DNB_1" ∨ mt = "DNB_2") ∧ h = a) := by
  by_cases h1 : mt = "DNB_1"
  · subst h1
    rw [show MemStorage.isBetPush "DNB_1" h a = decide ((h : ℚ) = (a : ℚ)) from rfl,
      decide_eq_true_iff]
    simp [Nat.cast_inj]
  · by_cases h2 : mt = "DNB_2"
    · subst h2
      rw [show MemStorage.isBetPush "DNB_2" h a = decide ((h : ℚ) = (a : ℚ)) from rfl,
        decide_eq_true_iff]
      simp [Nat.cast_inj]
    · simp only [MemStorage.isBetPush, if_neg h1, if_neg h2]
      simp [h1, h2]

/-- C8: the evaluator pair duplicated inside the server storage module agrees
with the evaluator pair exported from the client utils module on every input. -/
theorem C8_evaluators_agree (mt : String) (h a hh ha : ℚ) :
    MemStorage.isBetWinner mt h a hh ha = utils.isBetWinner mt h a hh ha ∧
    MemStorage.isBetPush mt h a = utils.isBetPush mt h a :=
  ⟨rfl, rfl⟩
/-- C3: on an existing bet with an existing owning user, `resolveBet` with WON
credits the owner's balance by exactly the bet's potential win and sets the
status to WON; with PUSH or LOST it sets the status and leaves the users
(hence every balance) unchanged. -/
theorem C3_resolveBet_payout (s : MemStorage) (betId : ℕ) (bet : Bet) (user : User)
    (hb : s.bets.find? (fun b => b.id == betId) = some bet)
    (hu : s.getUser bet.userId = some user) :
    ((s.resolveBet betId "WON").userBalance bet.userId =
        some (user.balance + bet.potentialWin) ∧
      (s.resolveBet betId "WON").betStatus betId = some "WON") ∧
    ∀ st : String, st = "PUSH" ∨ st = "LOST" →
      (s.resolveBet betId st).users = s.users ∧
      (s.resolveBet betId st).betStatus betId = some st := by
  refine ⟨⟨MemStorage.resolveBet_won_balance s betId bet user hb hu, ?_⟩, ?_⟩
  · exact MemStorage.resolveBet_betStatus_self s betId "WON" (by rw [hb]; rfl)
  · intro st hst
    refine ⟨?_, MemStorage.resolveBet_betStatus_self s betId st (by rw [hb]; rfl)⟩
    apply MemStorage.resolveBet_users_not_won
    rcases hst with hst | hst <;> subst hst <;> rfl

/-- Witness for C3 at a concrete storage. -/
theorem C3_resolveBet_payout_witness :
    ((storageC3.resolveBet 1 "WON").userBalance 1 = some (1000 + 20) ∧
      (storageC3.resolveBet 1 "WON").betStatus 1 = some "WON") ∧
    ((storageC3.resolveBet 1 "PUSH").users = storageC3.users ∧
      (storageC3.resolveBet 1 "PUSH").betStatus 1 = some "PUSH") := by
  have h := C3_resolveBet_payout storageC3 1 ⟨1, 1, 10, 2, 20, "PENDING"⟩
    ⟨1, "user", 1000⟩ rfl rfl
  exact ⟨h.1, h.2 "PUSH" (Or.inl rfl)⟩

/-- Counterexample to C4 as stated: bet 1 of `storageC4` is already WON, yet
`resolveBet 1 "WON"` changes the owner's balance (it credits the potential
win again), so the call is not a no-op. -/
theorem C4_counterexample :
    storageC4.betStatus 1 = some "WON" ∧
    (storageC4.resolveBet 1 "WON").userBalance 1 ≠ storageC4.userBalance 1 := by
  constructor
  · rfl
  · have hbal : (storageC4.resolveBet 1 "WON").userBalance 1 = some (1000 + 20 : ℚ) :=
      MemStorage.resolveBet_won_balance storageC4 1 ⟨1, 1, 10, 2, 20, "WON"⟩
        ⟨1, "user", 1000⟩ rfl rfl
    rw [hbal, show storageC4.userBalance 1 = some (1000 : ℚ) from rfl]
    intro hcontra
    have habs : (1000 : ℚ) + 20 = 1000 := Option.some.inj hcontra
    norm_num at habs

/-- C4 amended: `resolveBet` does not check the bet's prior status; called on a
bet that is not PENDING it still sets the status to the new value, and when the
new status is WON it credits the owner's balance with the potential win again. -/
theorem C4_resolveBet_ignores_prior_status (s : MemStorage) (betId : ℕ) (st : String)
    (bet : Bet) (user : User)
    (hb : s.bets.find? (fun b => b.id == betId) = some bet)
    (hu : s.getUser bet.userId = some user)
    (_hnp : bet.status ≠ "PENDING") :
    (s.resolveBet betId st).betStatus betId = some st ∧
    (st = "WON" →
      (s.resolveBet betId st).userBalance bet.userId =
        some (user.balance + bet.potentialWin)) := by
  refine ⟨MemStorage.resolveBet_betStatus_self s betId st (by rw [hb]; rfl), ?_⟩
  intro hst
  subst hst
  exact MemStorage.resolveBet_won_balance s betId bet user hb hu

/-- Witness for the amended C4 at a concrete storage whose bet is already WON. -/
theorem C4_resolveBet_ignores_prior_status_witness :
    (storageC4.resolveBet 1 "LOST").betStatus 1 = some "LOST" := by
  have h := C4_resolveBet_ignores_prior_status storageC4 1 "LOST"
    ⟨1, 1, 10, 2, 20, "WON"⟩ ⟨1, "user", 1000⟩ rfl rfl (by decide)
  exact h.1
/-- C9: when the match id has no record, or the match is not FINISHED, or a
full-time score is null, `resolveBetsForMatch` changes nothing at all. -/
theorem C9_resolveBetsForMatch_guard (s : MemStorage) (matchId : ℕ)
    (h : s.«matches».find? (fun mm => mm.id == matchId) = none ∨
      ∃ m, s.«matches».find? (fun mm => mm.id == matchId) = some m ∧
        (m.status ≠ "FINISHED" ∨ m.homeScore = none ∨ m.awayScore = none)) :
    s.resolveBetsForMatch matchId = s :=
  MemStorage.resolveBetsForMatch_early s matchId h

/-- Witness for C9: settling an UPCOMING match is a no-op. -/
theorem C9_resolveBetsForMatch_guard_witness :
    storageC9.resolveBetsForMatch 1 = storageC9 :=
  C9_resolveBetsForMatch_guard storageC9 1
    (Or.inr ⟨⟨1, "UPCOMING", none, none, none, none⟩, rfl, Or.inl (by decide)⟩)

/-- C2: for a FINISHED match with non-null scores, each PENDING bet's new
status is decided only from its selections whose market exists and belongs to
that match: LOST if one of them is neither winner nor push, else PUSH if one
of them pushes, else WON (also when no selection belongs to the match). -/
theorem C2_resolveBetsForMatch_pending (s : MemStorage) (matchId : ℕ) (m : Match)
    (hs aw : ℚ)
    (hm : s.«matches».find? (fun mm => mm.id == matchId) = some m)
    (hstat : m.status = "FINISHED")
    (hhs : m.homeScore = some hs) (haw : m.awayScore = some aw)
    (hpw : List.Pairwise (fun b b' : Bet => b.id ≠ b'.id) s.bets)
    (bet : Bet) (hmem : bet ∈ s.bets) (hpend : bet.status = "PENDING") :
    (s.resolveBetsForMatch matchId).betStatus bet.id =
      some (aggregateStatus s.markets matchId hs aw
        (m.htHomeScore.getD 0) (m.htAwayScore.getD 0)
        (s.betSelections.filter (fun sel => sel.betId == bet.id))) := by
  rw [MemStorage.resolveBetsForMatch_eq_fold s matchId m hs aw hm hstat hhs haw]
  exact MemStorage.foldl_settle_status matchId hs aw
    (m.htHomeScore.getD 0) (m.htAwayScore.getD 0) s.markets s.betSelections
    s.bets s bet hmem hpw rfl rfl
    (by
      have hex : ∃ x, x ∈ s.bets ∧ (fun b : Bet => b.id == bet.id) x = true :=
        ⟨bet, hmem, beq_self_eq_true bet.id⟩
      simpa using List.find?_isSome.mpr hex)
    hpend

/-- Witness for C2: the 1-1 DNB_1 single resolves the bet to PUSH. -/
theorem C2_resolveBetsForMatch_pending_witness :
    (storageC2.resolveBetsForMatch 1).betStatus 1 = some "PUSH" := by
  have h := C2_resolveBetsForMatch_pending storageC2 1
    ⟨1, "FINISHED", some 1, some 1, none, none⟩ 1 1 rfl rfl rfl rfl
    (List.pairwise_singleton _ _) ⟨1, 1, 10, 2, 20, "PENDING"⟩ (List.mem_cons_self _ _) rfl
  rw [h]
  decide

/-- C6: `resolveBetsForMatch` never changes the status of an already WON, LOST
or PUSH bet, and running it a second time for the same match leaves the whole
state (in particular every bet status) exactly as after the first run. -/
theorem C6_resolveBetsForMatch_idempotent (s : MemStorage) (matchId : ℕ)
    (hpw : List.Pairwise (fun b b' : Bet => b.id ≠ b'.id) s.bets)
    (bet : Bet) (hmem : bet ∈ s.bets)
    (hres : bet.status = "WON" ∨ bet.status = "LOST" ∨ bet.status = "PUSH") :
    (s.resolveBetsForMatch matchId).betStatus bet.id = some bet.status ∧
    (s.resolveBetsForMatch matchId).resolveBetsForMatch matchId =
      s.resolveBetsForMatch matchId := by
  have hnp : bet.status ≠ "PENDING" := by
    rcases hres with h | h | h <;> rw [h] <;> decide
  have hfind : s.bets.find? (fun b => b.id == bet.id) = some bet :=
    MemStorage.find?_eq_of_mem_of_pairwise s.bets bet hmem hpw
  have hbase : s.betStatus bet.id = some bet.status := by
    unfold MemStorage.betStatus
    rw [hfind]
    rfl
  have hpreserve : ∀ b' ∈ s.bets, b'.status = "PENDING" → b'.id ≠ bet.id := by
    intro b' hb' hpend'
    by_cases heq : b' = bet
    · exact absurd (heq ▸ hpend') hnp
    · have hsym : Symmetric (fun b b' : Bet => b.id ≠ b'.id) := fun _ _ hxy => hxy.symm
      exact (hpw.forall hsym) hb' hmem heq
  constructor
  · cases hm : s.«matches».find? (fun mm => mm.id == matchId) with
    | none =>
      rw [MemStorage.resolveBetsForMatch_early s matchId (Or.inl hm)]
      exact hbase
    | some m =>
      by_cases hstat : m.status = "FINISHED"
      · cases hhs : m.homeScore with
        | none =>
          rw [MemStorage.resolveBetsForMatch_early s matchId
            (Or.inr ⟨m, hm, Or.inr (Or.inl hhs)⟩)]
          exact hbase
        | some hs =>
          cases haw : m.awayScore with
          | none =>
            rw [MemStorage.resolveBetsForMatch_early s matchId
              (Or.inr ⟨m, hm, Or.inr (Or.inr haw)⟩)]
            exact hbase
          | some aw =>
            rw [MemStorage.resolveBetsForMatch_eq_fold s matchId m hs aw hm hstat hhs haw,
              MemStorage.foldl_settle_preserve _ _ _ _ _ s.bets s bet.id hpreserve]
            exact hbase
      · rw [MemStorage.resolveBetsForMatch_early s matchId (Or.inr ⟨m, hm, Or.inl hstat⟩)]
        exact hbase
  · cases hm : s.«matches».find? (fun mm => mm.id == matchId) with
    | none =>
      have he := MemStorage.resolveBetsForMatch_early s matchId (Or.inl hm)
      rw [he]
      exact he
    | some m =>
      by_cases hstat : m.status = "FINISHED"
      · cases hhs : m.homeScore with
        | none =>
          have he := MemStorage.resolveBetsForMatch_early s matchId
            (Or.inr ⟨m, hm, Or.inr (Or.inl hhs)⟩)
          rw [he]
          exact he
        | some hs =>
          cases haw : m.awayScore with
          | none =>
            have he := MemStorage.resolveBetsForMatch_early s matchId
              (Or.inr ⟨m, hm, Or.inr (Or.inr haw)⟩)
            rw [he]
            exact he
          | some aw =>
            have hrun := MemStorage.resolveBetsForMatch_eq_fold s matchId m hs aw
              hm hstat hhs haw
            have hm2 : (s.resolveBetsForMatch matchId).«matches».find?
                (fun mm => mm.id == matchId) = some m := by
              rw [hrun, MemStorage.foldl_settle_matches]
              exact hm
            rw [MemStorage.resolveBetsForMatch_eq_fold (s.resolveBetsForMatch matchId)
              matchId m hs aw hm2 hstat hhs haw]
            apply MemStorage.foldl_settle_id
            rw [hrun]
            apply MemStorage.foldl_settle_no_pending
            intro b' hb' hpend'
            exact ⟨b', hb', rfl, hpend'⟩
      · have he := MemStorage.resolveBetsForMatch_early s matchId
          (Or.inr ⟨m, hm, Or.inl hstat⟩)
        rw [he]
        exact he

/-- Witness for C6 at a concrete storage. -/
theorem C6_resolveBetsForMatch_idempotent_witness :
    (storageC6.resolveBetsForMatch 1).betStatus 1 = some "WON" ∧
    (storageC6.resolveBetsForMatch 1).resolveBetsForMatch 1 =
      storageC6.resolveBetsForMatch 1 :=
  C6_resolveBetsForMatch_idempotent storageC6 1 (List.pairwise_singleton _ _)
    ⟨1, 1, 10, 2, 20, "WON"⟩ (List.mem_cons_self _ _) (Or.inl rfl)
/-- C10 (implicit): when a match finishes, even a PENDING bet none of whose
selections reference that match (their markets are missing or belong to other
matches) is resolved: it is set to WON and its owner is credited the full
potential win. Stated for a storage whose bets map holds exactly that bet. -/
theorem C10_unrelated_pending_bet_won (s : MemStorage) (matchId : ℕ) (m : Match)
    (hs aw : ℚ) (bet : Bet) (user : User)
    (hm : s.«matches».find? (fun mm => mm.id == matchId) = some m)
    (hstat : m.status = "FINISHED")
    (hhs : m.homeScore = some hs) (haw : m.awayScore = some aw)
    (hbets : s.bets = [bet]) (hpend : bet.status = "PENDING")
    (hsels : ∀ sel ∈ s.betSelections.filter (fun sel => sel.betId == bet.id),
      selectionOutcome s.markets matchId hs aw
        (m.htHomeScore.getD 0) (m.htAwayScore.getD 0) sel = none)
    (hu : s.getUser bet.userId = some user) :
    (s.resolveBetsForMatch matchId).betStatus bet.id = some "WON" ∧
    (s.resolveBetsForMatch matchId).userBalance bet.userId =
      some (user.balance + bet.potentialWin) := by
  have hfind : s.bets.find? (fun b => b.id == bet.id) = some bet := by
    rw [hbets]
    exact List.find?_cons_of_pos _ (beq_self_eq_true bet.id)
  rw [MemStorage.resolveBetsForMatch_eq_fold s matchId m hs aw hm hstat hhs haw, hbets,
    List.foldl_cons, List.foldl_nil]
  unfold MemStorage.settleStep
  rw [hpend]
  simp only [beq_self_eq_true, if_true]
  have heval : MemStorage.evalSelections s.markets matchId hs aw
      (m.htHomeScore.getD 0) (m.htAwayScore.getD 0)
      (s.betSelections.filter (fun sel => sel.betId == bet.id)) false = (true, false) :=
    evalSelections_all_none s.markets matchId hs aw
      (m.htHomeScore.getD 0) (m.htAwayScore.getD 0)
      (s.betSelections.filter (fun sel => sel.betId == bet.id)) false hsels
  have h1 : (MemStorage.evalSelections s.markets matchId hs aw
      (m.htHomeScore.getD 0) (m.htAwayScore.getD 0)
      (s.betSelections.filter (fun sel => sel.betId == bet.id)) false).1 = true := by
    rw [heval]
  have h2 : ¬ ((MemStorage.evalSelections s.markets matchId hs aw
      (m.htHomeScore.getD 0) (m.htAwayScore.getD 0)
      (s.betSelections.filter (fun sel => sel.betId == bet.id)) false).2 = true) := by
    rw [heval]
    decide
  rw [if_pos h1, if_neg h2]
  exact ⟨MemStorage.resolveBet_betStatus_self s bet.id "WON" (by rw [hfind]; rfl),
    MemStorage.resolveBet_won_balance s bet.id bet user hfind hu⟩

/-- Witness for C10: the unrelated bet is finalized WON and paid. -/
theorem C10_unrelated_pending_bet_won_witness :
    (storageC10.resolveBetsForMatch 1).betStatus 1 = some "WON" ∧
    (storageC10.resolveBetsForMatch 1).userBalance 1 = some (1000 + 20) :=
  C10_unrelated_pending_bet_won storageC10 1
    ⟨1, "FINISHED", some 3, some 0, none, none⟩ 3 0
    ⟨1, 1, 10, 2, 20, "PENDING"⟩ ⟨1, "user", 1000⟩
    rfl rfl rfl rfl rfl rfl (by decide) rfl

/-- C7: updating match 1 to FINISHED 2-1 resolves the single `1`-market bet to
WON and credits the owner's balance with exactly the stored 18.5, on top of
the initial 1000. -/
theorem C7_end_to_end :
    storageC7.userBalance 1 = some 1000 ∧
    (storageC7.updateMatchStatus 1 "FINISHED" (some 2) (some 1) none none).betStatus 1 =
      some "WON" ∧
    (storageC7.updateMatchStatus 1 "FINISHED" (some 2) (some 1) none none).userBalance 1 =
      some (1000 + 18.5) :=
  ⟨rfl, rfl, rfl⟩
